import Mathlib

/-!
Verification of the two scripts of `this-day-that-year`:
`path_overlay.py` (GPX fetch / parse / HTML map rendering) and
`reitti_collage.py` (screenshot collage composition).

The Python code is shallowly embedded: each function that the testable
properties talk about becomes a total Lean function over an explicit model
of its inputs.  External effects (the XML library, the HTTP client, the
filesystem, PIL image loading) are modelled by the value they deliver to
the script, and writing an output file is modelled by returning `some`
payload (`none` = no file written, failure reported).  Python floats are
modelled by `ℚ`, Python dicts with insertion order by association lists.
-/

namespace ThisDayThatYear

/-! ### Model of `parse_gpx_coordinates` (src/path_overlay.py lines 8-33)

`ET.fromstring` either raises (malformed XML) or yields a tree; the two
`findall` calls return, in document order, the `trkpt` / `wpt` elements in
the GPX namespace.  A document is therefore modelled as the list of its
namespaced elements in document order, each carrying its `lat` / `lon`
attributes.  `float(elem.get(..))` raises on a missing attribute
(`float(None)`) and on a non-numeric string; any exception inside the
`try` makes the function print the error and return `[]`. -/

/-- A coordinate pair `[lat, lon]`, Python floats modelled as rationals. -/
abbrev Coord := ℚ × ℚ

/-- The value of an XML attribute as the script sees it: absent
(`elem.get` returns `None`), present but not parseable by `float`, or a
numeric value. -/
inductive AttrVal
  | absent
  | nonNumeric
  | num (q : ℚ)
deriving DecidableEq, Repr

/-- `float(elem.get(attr))`: succeeds exactly on a numeric attribute. -/
def readFloat : AttrVal → Option ℚ
  | .num q => some q
  | _ => none

/-- The tag of a namespaced element: a track point, a waypoint, or
anything else (ignored by both `findall` calls). -/
inductive ElemKind
  | trkpt
  | wpt
  | other
deriving DecidableEq, Repr

/-- One element of the parsed XML tree with its positional attributes. -/
structure GpxElem where
  kind : ElemKind
  lat : AttrVal
  lon : AttrVal
deriving DecidableEq, Repr

/-- A well-formed XML document, reduced to its namespaced elements in
document order (the order `findall` with a `.//` path yields). -/
structure GpxDoc where
  elems : List GpxElem
deriving DecidableEq, Repr

/-- What `ET.fromstring` does with the input string: raise a parse error
(malformed XML) or produce a tree. -/
inductive GpxInput
  | malformed
  | wellFormed (doc : GpxDoc)

/-- Reading one element's coordinate:
`lat = float(e.get('lat')); lon = float(e.get('lon'))`. -/
def readCoord (e : GpxElem) : Option Coord := do
  let la ← readFloat e.lat
  let lo ← readFloat e.lon
  pure (la, lo)

/-- The track points of the document, in document order. -/
def trkpts (doc : GpxDoc) : List GpxElem :=
  doc.elems.filter fun e => e.kind == .trkpt

/-- The waypoints of the document, in document order. -/
def wpts (doc : GpxDoc) : List GpxElem :=
  doc.elems.filter fun e => e.kind == .wpt

/-- The `for` loop appending one coordinate per element; the first element
whose attributes fail to read raises, aborting the whole extraction. -/
def extractCoords : List GpxElem → Option (List Coord)
  | [] => some []
  | e :: es => do
    let c ← readCoord e
    let cs ← extractCoords es
    pure (c :: cs)

/-- `parse_gpx_coordinates` (src/path_overlay.py lines 8-33): on malformed
XML, or on any exception while reading an element, return `[]`; otherwise
return all track-point coordinates followed by all waypoint coordinates. -/
def parse_gpx_coordinates : GpxInput → List Coord
  | .malformed => []
  | .wellFormed doc =>
    match extractCoords (trkpts doc) with
    | none => []
    | some ts =>
      match extractCoords (wpts doc) with
      | none => []
      | some ws => ts ++ ws

/-! Helper lemmas about `extractCoords`. -/

theorem extractCoords_eq_none_of_mem {es : List GpxElem} {e : GpxElem}
    (he : e ∈ es) (hbad : readCoord e = none) : extractCoords es = none := by
  induction es with
  | nil => cases he
  | cons a as ih =>
    rcases List.mem_cons.mp he with rfl | h
    · simp [extractCoords, hbad]
    · cases hra : readCoord a <;> simp [extractCoords, hra, ih h]

/-- C1: for a well-formed GPX document whose track points extract to the
list `ts` and whose waypoints extract to the list `ws` (each list produced
element-by-element in document order, since `trkpts` and `wpts` are
order-preserving filters of the document and `extractCoords` maps them in
order), the parser returns exactly `ts ++ ws`: all track-point coordinates
first, then all waypoint coordinates, each group in document order. -/
theorem parse_trkpts_before_wpts (doc : GpxDoc) (ts ws : List Coord)
    (ht : extractCoords (trkpts doc) = some ts)
    (hw : extractCoords (wpts doc) = some ws) :
    parse_gpx_coordinates (.wellFormed doc) = ts ++ ws := by
  simp [parse_gpx_coordinates, ht, hw]

/-- C1 witness: a document with a waypoint written before two track
points still yields the track points (in document order) first. -/
theorem parse_trkpts_before_wpts_witness :
    extractCoords (trkpts ⟨[⟨.wpt, .num 1, .num 2⟩, ⟨.trkpt, .num 3, .num 4⟩,
        ⟨.other, .num 9, .num 9⟩, ⟨.trkpt, .num 5, .num 6⟩]⟩) =
      some [(3, 4), (5, 6)] ∧
    extractCoords (wpts ⟨[⟨.wpt, .num 1, .num 2⟩, ⟨.trkpt, .num 3, .num 4⟩,
        ⟨.other, .num 9, .num 9⟩, ⟨.trkpt, .num 5, .num 6⟩]⟩) =
      some [(1, 2)] ∧
    parse_gpx_coordinates (.wellFormed ⟨[⟨.wpt, .num 1, .num 2⟩,
        ⟨.trkpt, .num 3, .num 4⟩, ⟨.other, .num 9, .num 9⟩,
        ⟨.trkpt, .num 5, .num 6⟩]⟩) = [(3, 4), (5, 6)] ++ [(1, 2)] := by
  refine ⟨by decide, by decide, parse_trkpts_before_wpts _ _ _ (by decide) (by decide)⟩

/-- C2: on input that is not well-formed XML the parser returns the empty
sequence.  (`parse_gpx_coordinates` is a total Lean function, so in the
model it cannot raise; in the source the `except` clause catches the
`ET.ParseError` and returns `[]`.) -/
theorem parse_malformed_empty : parse_gpx_coordinates .malformed = [] := rfl

/-- C10: if any single track-point or waypoint element of a well-formed
document fails to extract (missing or non-numeric `lat` / `lon`), the
parser returns `[]`, discarding every coordinate already parsed, because
the exception escapes the loops to the surrounding `try`. -/
theorem parse_bad_elem_discards_all (doc : GpxDoc) (e : GpxElem)
    (he : e ∈ doc.elems) (hk : e.kind = .trkpt ∨ e.kind = .wpt)
    (hbad : readCoord e = none) :
    parse_gpx_coordinates (.wellFormed doc) = [] := by
  rcases hk with hk | hk
  · have hmem : e ∈ trkpts doc := by
      simp [trkpts, List.mem_filter, he, hk]
    simp [parse_gpx_coordinates, extractCoords_eq_none_of_mem hmem hbad]
  · have hmem : e ∈ wpts doc := by
      simp [wpts, List.mem_filter, he, hk]
    cases htr : extractCoords (trkpts doc) <;>
      simp [parse_gpx_coordinates, htr, extractCoords_eq_none_of_mem hmem hbad]

/-- C10 witness: one good track point followed by a waypoint with a
missing `lon` attribute yields `[]`, not the partial `[(3, 4)]`. -/
theorem parse_bad_elem_discards_all_witness :
    parse_gpx_coordinates (.wellFormed ⟨[⟨.trkpt, .num 3, .num 4⟩,
        ⟨.wpt, .num 1, .absent⟩]⟩) = [] :=
  parse_bad_elem_discards_all ⟨[⟨.trkpt, .num 3, .num 4⟩, ⟨.wpt, .num 1, .absent⟩]⟩
    ⟨.wpt, .num 1, .absent⟩ (by decide) (Or.inr rfl) (by decide)

/-! ### Model of the fetch loop of `main` (src/path_overlay.py lines 204-223)

For each year the call `requests.get(...)` either raises (caught by the
per-year `except`) or delivers a response with a status code, a content
byte length, and a body handed to the parser.  The loop is deterministic
in the per-year outcome, so the network is an oracle `Nat → FetchOutcome`.
`paths_by_year` is a dict built in loop order, modelled as an association
list. -/

/-- What one year's `requests.get` does. -/
inductive FetchOutcome
  | exn
  | resp (status : Nat) (contentLen : Nat) (body : GpxInput)

/-- The body of one loop iteration, returning the entry stored in
`paths_by_year` for that year (`none` = year left absent). -/
def processYear : FetchOutcome → Option (List Coord)
  | .exn => none
  | .resp status contentLen body =>
    if status = 200 ∧ 1000 < contentLen then
      let coordinates := parse_gpx_coordinates body
      if coordinates = [] then none else some coordinates
    else none

/-- `range(start_year, end_year + 1)`: the inclusive year range. -/
def yearRange (startYear endYear : Nat) : List Nat :=
  List.range' startYear (endYear + 1 - startYear)

/-- The whole loop: `paths_by_year` after visiting every year in order. -/
def fetchPaths (startYear endYear : Nat) (fetch : Nat → FetchOutcome) :
    List (Nat × List Coord) :=
  (yearRange startYear endYear).filterMap fun y =>
    (processYear (fetch y)).map fun cs => (y, cs)

theorem processYear_eq_some_iff (o : FetchOutcome) (cs : List Coord) :
    processYear o = some cs ↔
      ∃ len body, o = .resp 200 len body ∧ 1000 < len ∧
        parse_gpx_coordinates body = cs ∧ cs ≠ [] := by
  cases o with
  | exn => simp [processYear]
  | resp status len body =>
    simp only [processYear]
    split_ifs with h1 h2
    · constructor
      · intro h; cases h
      · rintro ⟨l, b, heq, hlen, hparse, hcs⟩
        cases heq
        exact hcs (hparse ▸ h2)
    · constructor
      · intro h
        cases h
        exact ⟨len, body, by rw [h1.1], h1.2, rfl, h2⟩
      · rintro ⟨l, b, heq, hlen, hparse, hcs⟩
        cases heq
        rw [hparse]
    · constructor
      · intro h; cases h
      · rintro ⟨l, b, heq, hlen, hparse, hcs⟩
        cases heq
        exact h1 ⟨rfl, hlen⟩

theorem lookup_fetchMap_not_mem (ys : List Nat) (g : Nat → Option (List Coord))
    (y : Nat) (hy : y ∉ ys) :
    List.lookup y (ys.filterMap fun z => (g z).map fun cs => (z, cs)) = none := by
  induction ys with
  | nil => rfl
  | cons a as ih =>
    have hya : ¬(y = a) := fun h => hy (h ▸ List.mem_cons_self a as)
    have hyas : y ∉ as := fun h => hy (List.mem_cons_of_mem a h)
    have hb : (y == a) = false := by simp [hya]
    cases hga : g a with
    | none => simpa [List.filterMap_cons, hga] using ih hyas
    | some cs =>
      simp [List.filterMap_cons, hga, List.lookup, hb, ih hyas]

theorem lookup_fetchMap_mem (ys : List Nat) (g : Nat → Option (List Coord))
    (y : Nat) (hy : y ∈ ys) (hnd : ys.Nodup) :
    List.lookup y (ys.filterMap fun z => (g z).map fun cs => (z, cs)) = g y := by
  induction ys with
  | nil => cases hy
  | cons a as ih =>
    have hnd' := List.nodup_cons.mp hnd
    rcases List.mem_cons.mp hy with rfl | hmem
    · cases hgy : g y with
      | none =>
        simpa [List.filterMap_cons, hgy] using
          lookup_fetchMap_not_mem as g y hnd'.1
      | some cs => simp [List.filterMap_cons, hgy, List.lookup]
    · have hne : ¬(y = a) := by rintro rfl; exact hnd'.1 hmem
      have hb : (y == a) = false := by simp [hne]
      cases hga : g a with
      | none => simpa [List.filterMap_cons, hga] using ih hmem hnd'.2
      | some cs =>
        simp [List.filterMap_cons, hga, List.lookup, hb, ih hmem hnd'.2]

/-- C3: a year in the configured inclusive range appears in the resulting
collection exactly when its GET raised no exception, returned status 200
with strictly more than 1000 bytes, and the parser produced at least one
coordinate; otherwise no entry for the year exists at all. -/
theorem year_present_iff_success (startYear endYear : Nat)
    (fetch : Nat → FetchOutcome) (y : Nat)
    (hy : y ∈ yearRange startYear endYear) :
    (∃ cs, (y, cs) ∈ fetchPaths startYear endYear fetch) ↔
      ∃ len body, fetch y = .resp 200 len body ∧ 1000 < len ∧
        parse_gpx_coordinates body ≠ [] := by
  constructor
  · rintro ⟨cs, hmem⟩
    obtain ⟨z, hz, hmap⟩ := List.mem_filterMap.mp hmem
    obtain ⟨cs', hcs', heq⟩ := Option.map_eq_some'.mp hmap
    obtain ⟨rfl, rfl⟩ : z = y ∧ cs' = cs := by
      exact ⟨congrArg Prod.fst heq, congrArg Prod.snd heq⟩
    obtain ⟨len, body, hresp, hlen, _, hne⟩ :=
      (processYear_eq_some_iff _ _).mp hcs'
    exact ⟨len, body, hresp, hlen, by simp_all⟩
  · rintro ⟨len, body, hresp, hlen, hne⟩
    refine ⟨parse_gpx_coordinates body, List.mem_filterMap.mpr ⟨y, hy, ?_⟩⟩
    have : processYear (fetch y) = some (parse_gpx_coordinates body) :=
      (processYear_eq_some_iff _ _).mpr ⟨len, body, hresp, hlen, rfl, hne⟩
    simp [this]

/-- C3 witness: with an oracle succeeding for 2020 and raising for 2021,
year 2020 is present (and the success criterion holds for it). -/
theorem year_present_iff_success_witness :
    (∃ cs, (2020, cs) ∈ fetchPaths 2020 2021 fun y =>
        if y = 2020 then
          .resp 200 2000 (.wellFormed ⟨[⟨.trkpt, .num 3, .num 4⟩]⟩)
        else .exn) ↔
      ∃ len body, (if 2020 = 2020 then
          FetchOutcome.resp 200 2000
            (.wellFormed ⟨[⟨.trkpt, .num 3, .num 4⟩]⟩)
        else FetchOutcome.exn) = .resp 200 len body ∧ 1000 < len ∧
        parse_gpx_coordinates body ≠ [] :=
  year_present_iff_success 2020 2021 _ 2020 (by decide)

/-- C9: the loop visits every year of the range — the entry recorded for a
year `y` in range is exactly `processYear` of that year's own fetch
outcome — and the recorded outcome is independent of every other year's
outcome: two oracles agreeing at `y` give `y` the same entry, whatever
failures they show elsewhere. -/
theorem per_year_outcomes_independent (startYear endYear : Nat)
    (fetchA fetchB : Nat → FetchOutcome) (y : Nat)
    (hy : y ∈ yearRange startYear endYear) :
    List.lookup y (fetchPaths startYear endYear fetchA) =
        processYear (fetchA y) ∧
      (fetchA y = fetchB y →
        List.lookup y (fetchPaths startYear endYear fetchA) =
          List.lookup y (fetchPaths startYear endYear fetchB)) := by
  have hnd : (yearRange startYear endYear).Nodup :=
    List.nodup_range' startYear (endYear + 1 - startYear)
  have hA := lookup_fetchMap_mem _ (fun z => processYear (fetchA z)) y hy hnd
  have hB := lookup_fetchMap_mem _ (fun z => processYear (fetchB z)) y hy hnd
  refine ⟨hA, fun hagree => ?_⟩
  calc List.lookup y (fetchPaths startYear endYear fetchA)
      = processYear (fetchA y) := hA
    _ = processYear (fetchB y) := by rw [hagree]
    _ = List.lookup y (fetchPaths startYear endYear fetchB) := hB.symm

/-- C9 witness: year 2021 failing (exception) does not disturb 2020's
entry, and 2020's entry is its own fetch outcome. -/
theorem per_year_outcomes_independent_witness :
    List.lookup 2020 (fetchPaths 2020 2021 fun y =>
        if y = 2020 then
          .resp 200 2000 (.wellFormed ⟨[⟨.trkpt, .num 3, .num 4⟩]⟩)
        else .exn) =
      processYear (if (2020 : Nat) = 2020 then
          FetchOutcome.resp 200 2000
            (.wellFormed ⟨[⟨.trkpt, .num 3, .num 4⟩]⟩)
        else FetchOutcome.exn) :=
  (per_year_outcomes_independent 2020 2021 _ (fun _ => .exn) 2020 (by decide)).1

/-! ### Model of `generate_html_map` (src/path_overlay.py lines 35-173)

The function flattens all years' coordinates, returns early (writing no
file) when there are none, and otherwise writes an HTML document.  The
quantities the claims are about — the map center, the legend entries with
their colors and point counts, the summary counters — are modelled as the
payload of the written file; `none` models the early return with no
write. -/

/-- The fixed 15-color palette (src/path_overlay.py lines 51-55). -/
def colors : List String :=
  ["#FF0000", "#00FF00", "#0000FF", "#FFFF00", "#FF00FF",
   "#00FFFF", "#FF8800", "#8800FF", "#FF0088", "#00FF88",
   "#88FF00", "#0088FF", "#FF6600", "#6600FF", "#FF0066"]

/-- One legend line: `{year} ({count} points)` rendered in `color`. -/
structure LegendEntry where
  year : Nat
  color : String
  points : Nat
deriving DecidableEq, Repr

/-- The data of the written HTML document. -/
structure MapOutput where
  centerLat : ℚ
  centerLon : ℚ
  legend : List LegendEntry
  yearsWithData : Nat
  totalPoints : Nat
deriving DecidableEq, Repr

/-- `all_coords`: every year's coordinates concatenated in dict
(insertion) order. -/
def allCoords (paths : List (Nat × List Coord)) : List Coord :=
  (paths.map Prod.snd).flatten

/-- The `for i, (year, coords) in enumerate(paths_by_year.items())` loop:
the enumerate index advances on every item, including those skipped for an
empty coordinate list, and each kept item gets `colors[i % len(colors)]`. -/
def legendFrom : Nat → List (Nat × List Coord) → List LegendEntry
  | _, [] => []
  | i, (year, coords) :: rest =>
    if coords = [] then legendFrom (i + 1) rest
    else ⟨year, colors[i % colors.length]!, coords.length⟩ :: legendFrom (i + 1) rest

/-- `generate_html_map` (src/path_overlay.py lines 35-173): `none` when
`all_coords` is empty (no file written), otherwise the written document's
data: center = componentwise sum over `all_coords` divided by its length,
legend built by the enumerate loop, `Years with Data` = number of dict
entries, `Total Points` = length of `all_coords`. -/
def generate_html_map (paths : List (Nat × List Coord)) : Option MapOutput :=
  if allCoords paths = [] then none
  else
    some
      { centerLat := ((allCoords paths).map Prod.fst).sum / (allCoords paths).length
        centerLon := ((allCoords paths).map Prod.snd).sum / (allCoords paths).length
        legend := legendFrom 0 paths
        yearsWithData := paths.length
        totalPoints := (allCoords paths).length }

theorem allCoords_ne_nil (p : Nat × List Coord) (rest : List (Nat × List Coord))
    (hp : p.2 ≠ []) : allCoords (p :: rest) ≠ [] := by
  simp only [allCoords, List.map_cons, List.flatten_cons]
  intro h
  exact hp (List.append_eq_nil.mp h).1

/-- C4: for a PathCollection that is non-empty (and, as `main` builds it,
stores a non-empty coordinate list per year), the map is written, its
center is the arithmetic mean — componentwise — of the concatenation of
all years' coordinates, and the displayed total point count is the sum of
the per-year sequence lengths. -/
theorem map_center_mean_and_total (paths : List (Nat × List Coord))
    (hne : paths ≠ []) (hval : ∀ p ∈ paths, p.2 ≠ []) :
    ∃ out, generate_html_map paths = some out ∧
      out.centerLat = ((allCoords paths).map Prod.fst).sum /
        ((allCoords paths).length : ℚ) ∧
      out.centerLon = ((allCoords paths).map Prod.snd).sum /
        ((allCoords paths).length : ℚ) ∧
      out.totalPoints = (paths.map fun p => p.2.length).sum := by
  obtain ⟨p, rest, rfl⟩ := List.exists_cons_of_ne_nil hne
  have hcoords : allCoords (p :: rest) ≠ [] :=
    allCoords_ne_nil p rest (hval p (List.mem_cons_self p rest))
  simp only [generate_html_map]
  rw [if_neg hcoords]
  refine ⟨_, rfl, rfl, rfl, ?_⟩
  show (allCoords (p :: rest)).length = _
  simp [allCoords, List.length_flatten, Function.comp_def]

/-- C4 witness: two years with 1 and 3 points; center is the mean of all
4 coordinates and the displayed total is 4. -/
theorem map_center_mean_and_total_witness :
    ∃ out, generate_html_map [(2021, [((2 : ℚ), (10 : ℚ))]),
        (2023, [(4, 20), (6, 30), (8, 40)])] = some out ∧
      out.centerLat = ((allCoords [(2021, [((2 : ℚ), (10 : ℚ))]),
        (2023, [(4, 20), (6, 30), (8, 40)])]).map Prod.fst).sum /
        ((allCoords [(2021, [((2 : ℚ), (10 : ℚ))]),
          (2023, [(4, 20), (6, 30), (8, 40)])]).length : ℚ) ∧
      out.centerLon = ((allCoords [(2021, [((2 : ℚ), (10 : ℚ))]),
        (2023, [(4, 20), (6, 30), (8, 40)])]).map Prod.snd).sum /
        ((allCoords [(2021, [((2 : ℚ), (10 : ℚ))]),
          (2023, [(4, 20), (6, 30), (8, 40)])]).length : ℚ) ∧
      out.totalPoints = ([(2021, [((2 : ℚ), (10 : ℚ))]),
        (2023, [(4, 20), (6, 30), (8, 40)])].map fun p => p.2.length).sum :=
  map_center_mean_and_total _ (by decide)
    (by intro p hp; fin_cases hp <;> decide)

theorem legendFrom_get (paths : List (Nat × List Coord))
    (hval : ∀ p ∈ paths, p.2 ≠ []) (i n : Nat) (hn : n < paths.length) :
    (legendFrom i paths)[n]? =
      paths[n]?.map fun p =>
        ⟨p.1, colors[(i + n) % colors.length]!, p.2.length⟩ := by
  induction paths generalizing i n with
  | nil => simp at hn
  | cons p rest ih =>
    obtain ⟨year, coords⟩ := p
    have hp : coords ≠ [] := hval (year, coords) (List.mem_cons_self _ rest)
    cases n with
    | zero => simp [legendFrom, hp]
    | succ m =>
      have hrec := ih (fun q hq => hval q (List.mem_cons_of_mem _ hq)) (i + 1) m
        (by simpa using Nat.lt_of_succ_lt_succ hn)
      have hidx : i + 1 + m = i + (m + 1) := by omega
      simp only [legendFrom, if_neg hp, List.getElem?_cons_succ]
      rw [hrec, hidx]

/-- C5: when every stored coordinate list is non-empty (as `main`
guarantees), the legend entry for the Nth inserted year carries palette
color `colors[N % len(colors)]`; `generate_html_map` is a pure function of
the collection, so repeated runs with the same insertion order reproduce
the same assignment. -/
theorem nth_year_gets_nth_color (paths : List (Nat × List Coord))
    (hval : ∀ p ∈ paths, p.2 ≠ []) (n : Nat) (hn : n < paths.length) :
    ∃ out, generate_html_map paths = some out ∧
      out.legend[n]? = paths[n]?.map fun p =>
        ⟨p.1, colors[n % colors.length]!, p.2.length⟩ := by
  have hne : paths ≠ [] := by rintro rfl; simp at hn
  obtain ⟨p, rest, rfl⟩ := List.exists_cons_of_ne_nil hne
  have hcoords : allCoords (p :: rest) ≠ [] :=
    allCoords_ne_nil p rest (hval p (List.mem_cons_self p rest))
  simp only [generate_html_map]
  rw [if_neg hcoords]
  refine ⟨_, rfl, ?_⟩
  show (legendFrom 0 (p :: rest))[n]? = _
  simpa using legendFrom_get (p :: rest) hval 0 n hn

/-- C5 witness: with 16 years inserted, year number 15 (0-indexed) wraps
around to palette color 15 % 15 = 0. -/
theorem nth_year_gets_nth_color_witness :
    ∃ out, generate_html_map ((List.range 16).map fun k =>
        (2000 + k, [((1 : ℚ), (1 : ℚ))])) = some out ∧
      out.legend[15]? = ((List.range 16).map fun k =>
        (2000 + k, [((1 : ℚ), (1 : ℚ))]))[15]?.map fun p =>
        ⟨p.1, colors[15 % colors.length]!, p.2.length⟩ :=
  nth_year_gets_nth_color _ (by intro p hp; fin_cases hp <;> decide) 15 (by decide)

/-! ### Model of `create_collage` (src/reitti_collage.py lines 104-148)

Loading an image from a path either finds no file (`os.path.exists`
false), raises in `Image.open` (unreadable, caught and warned about), or
yields an image.  The filesystem is modelled by the per-path load result,
in input-path order.  An image is its pixel dimensions plus an opaque
content tag; the written collage is modelled by its canvas size and the
list of pastes (image, position, pasted size — `img.resize` to the
reference size whenever the dimensions differ, so every paste has the
first image's size).  `none` models `return False` with no file written. -/

/-- An image: dimensions plus an opaque identity for its content. -/
structure Img where
  width : Nat
  height : Nat
  tag : Nat
deriving DecidableEq, Repr

/-- What loading one path yields. -/
inductive LoadResult
  | missing
  | unreadable
  | ok (img : Img)
deriving DecidableEq, Repr

/-- The loading loop: keep the successfully opened images, in input
order; missing and unreadable paths are skipped with a warning. -/
def loadImages (loads : List LoadResult) : List Img :=
  loads.filterMap fun r =>
    match r with
    | .ok img => some img
    | _ => none

/-- One `collage.paste`: which image went where, at what pasted size. -/
structure Placement where
  img : Img
  x : Nat
  y : Nat
  w : Nat
  h : Nat
deriving DecidableEq, Repr

/-- The pasting loop (`for idx, img in enumerate(images)`): row-major
placement at (col·w, row·h), every paste at the reference size w × h. -/
def placeImages (w h columns : Nat) : Nat → List Img → List Placement
  | _, [] => []
  | idx, img :: rest =>
    ⟨img, (idx % columns) * w, (idx / columns) * h, w, h⟩ ::
      placeImages w h columns (idx + 1) rest

/-- The written collage file's data. -/
structure Collage where
  width : Nat
  height : Nat
  placements : List Placement
deriving DecidableEq, Repr

/-- `create_collage` (src/reitti_collage.py lines 104-148): `none` when no
image loads (`return False`, nothing written); otherwise a canvas of
`columns × first width` by `rows × first height` with
`rows = (count + columns - 1) // columns`, and the loaded images pasted
row-major in order. -/
def create_collage (loads : List LoadResult) (columns : Nat) : Option Collage :=
  match loadImages loads with
  | [] => none
  | firstImg :: restImgs =>
    let images := firstImg :: restImgs
    let w := firstImg.width
    let h := firstImg.height
    let rows := (images.length + columns - 1) / columns
    some
      { width := columns * w
        height := rows * h
        placements := placeImages w h columns 0 images }

theorem create_collage_eq (loads : List LoadResult) (columns : Nat)
    (img0 : Img) (rest : List Img) (heq : loadImages loads = img0 :: rest) :
    create_collage loads columns = some
      { width := columns * img0.width
        height := ((img0 :: rest).length + columns - 1) / columns * img0.height
        placements := placeImages img0.width img0.height columns 0
          (img0 :: rest) } := by
  unfold create_collage
  rw [heq]

theorem placeImages_getElem (w h columns : Nat) (imgs : List Img)
    (i n : Nat) (hn : n < imgs.length) :
    (placeImages w h columns i imgs)[n]? =
      imgs[n]?.map fun img =>
        ⟨img, ((i + n) % columns) * w, ((i + n) / columns) * h, w, h⟩ := by
  induction imgs generalizing i n with
  | nil => simp at hn
  | cons a rest ih =>
    cases n with
    | zero => simp [placeImages]
    | succ m =>
      have hrec := ih (i + 1) m (by simpa using Nat.lt_of_succ_lt_succ hn)
      have hidx : i + 1 + m = i + (m + 1) := by omega
      simp only [placeImages, List.getElem?_cons_succ]
      rw [hrec, hidx]

theorem placeImages_map_img (w h columns i : Nat) (imgs : List Img) :
    (placeImages w h columns i imgs).map Placement.img = imgs := by
  induction imgs generalizing i with
  | nil => rfl
  | cons a rest ih => simp [placeImages, ih]

theorem loadImages_map_ok (imgs : List Img) :
    loadImages (imgs.map .ok) = imgs := by
  induction imgs with
  | nil => rfl
  | cons a rest ih => simp [loadImages] at ih ⊢; exact ih

/-- C6: for a list of loadable images headed by `img0` and a positive
column count, the collage is written with canvas `columns · img0.width`
wide and `⌈count / columns⌉ · img0.height` tall, and the image at input
index `n` is pasted at column `n % columns` and row `n / columns`, at the
first image's size (resized, not cropped, if its own dimensions differ). -/
theorem collage_grid_layout (img0 : Img) (rest : List Img) (columns : Nat)
    (_hc : 0 < columns) :
    ∃ col, create_collage ((img0 :: rest).map .ok) columns = some col ∧
      col.width = columns * img0.width ∧
      col.height = ((img0 :: rest).length ⌈/⌉ columns) * img0.height ∧
      ∀ n, n < (img0 :: rest).length →
        col.placements[n]? = ((img0 :: rest)[n]?).map fun img =>
          ⟨img, (n % columns) * img0.width, (n / columns) * img0.height,
            img0.width, img0.height⟩ := by
  have hload : loadImages ((img0 :: rest).map .ok) = img0 :: rest :=
    loadImages_map_ok (img0 :: rest)
  refine ⟨_, create_collage_eq _ columns img0 rest hload, rfl, ?_, ?_⟩
  · show ((img0 :: rest).length + columns - 1) / columns * img0.height = _
    rw [Nat.ceilDiv_eq_add_pred_div]
  · intro n hn
    show (placeImages img0.width img0.height columns 0 (img0 :: rest))[n]? = _
    simpa using placeImages_getElem img0.width img0.height columns
      (img0 :: rest) 0 n hn

/-- C6 witness: 4 identically sized images, columns = 3: canvas is
3 widths by 2 heights and input index 3 lands at row 1, column 0. -/
theorem collage_grid_layout_witness :
    ∃ col, create_collage (([⟨100, 50, 0⟩, ⟨100, 50, 1⟩, ⟨100, 50, 2⟩,
        ⟨100, 50, 3⟩] : List Img).map .ok) 3 = some col ∧
      col.width = 3 * 100 ∧
      col.height = (([⟨100, 50, 0⟩, ⟨100, 50, 1⟩, ⟨100, 50, 2⟩,
        ⟨100, 50, 3⟩] : List Img).length ⌈/⌉ 3) * 50 ∧
      col.placements[3]? = some ⟨⟨100, 50, 3⟩, 0 * 100, 1 * 50, 100, 50⟩ := by
  obtain ⟨col, h1, h2, h3, h4⟩ :=
    collage_grid_layout ⟨100, 50, 0⟩ [⟨100, 50, 1⟩, ⟨100, 50, 2⟩, ⟨100, 50, 3⟩]
      3 (by decide)
  exact ⟨col, h1, h2, h3, by simpa using h4 3 (by decide)⟩

/-- C7: on empty input neither output stage writes its file:
`generate_html_map` returns early for a collection with no coordinates at
all, and `create_collage` returns failure when zero images load from the
path list. -/
theorem empty_input_writes_nothing (paths : List (Nat × List Coord))
    (loads : List LoadResult) (columns : Nat)
    (hpaths : allCoords paths = []) (hloads : loadImages loads = []) :
    generate_html_map paths = none ∧ create_collage loads columns = none := by
  constructor
  · simp [generate_html_map, hpaths]
  · unfold create_collage
    rw [hloads]

/-- C7 witness: the empty collection and a path list of one missing and
one unreadable file produce no map and no collage. -/
theorem empty_input_writes_nothing_witness :
    generate_html_map [] = none ∧
      create_collage [.missing, .unreadable] 3 = none :=
  empty_input_writes_nothing [] [.missing, .unreadable] 3 rfl rfl

/-- C8: skipped files are not fatal: whenever at least one image loads,
the collage is written and its pastes are exactly the loadable images of
the path list, in input order. -/
theorem skipped_files_not_fatal (loads : List LoadResult) (columns : Nat)
    (hne : loadImages loads ≠ []) :
    ∃ col, create_collage loads columns = some col ∧
      col.placements.map Placement.img = loadImages loads := by
  obtain ⟨img0, rest, heq⟩ := List.exists_cons_of_ne_nil hne
  refine ⟨_, create_collage_eq loads columns img0 rest heq, ?_⟩
  show (placeImages img0.width img0.height columns 0
    (img0 :: rest)).map Placement.img = _
  rw [placeImages_map_img, heq]

/-- C8 witness: a missing file, an unreadable file, and two loadable
images still produce a collage pasting exactly the two images in order. -/
theorem skipped_files_not_fatal_witness :
    ∃ col, create_collage [.missing, .ok ⟨100, 50, 0⟩, .unreadable,
        .ok ⟨80, 40, 1⟩] 3 = some col ∧
      col.placements.map Placement.img =
        loadImages [.missing, .ok ⟨100, 50, 0⟩, .unreadable, .ok ⟨80, 40, 1⟩] :=
  skipped_files_not_fatal [.missing, .ok ⟨100, 50, 0⟩, .unreadable,
    .ok ⟨80, 40, 1⟩] 3 (by decide)

end ThisDayThatYear
